import Mathlib

/-!
Formal model of the Livestatus query parser (`packages/livestatus/src/ParsedQuery.cc`)
and the service-groups table registration (`livestatus/src/TableServiceGroups.cc`).

Strings are modelled as lists of characters (`Str`); the C++ `std::string_view`
in-place `remove_prefix` operations become pure functions returning the suffix.
The three LIFO stacks (`std::vector` with `push_back`/`pop_back`/`back`) are
modelled as Lean lists whose HEAD is the vector's BACK (the top of the stack);
consequently the vector read front-to-back (chronological push order) is the
Lean list reversed.  C++ exceptions thrown after partial mutation are modelled
by `Except` results whose error value carries the partially-mutated state where
a mutation can precede the throw.
-/

namespace Livestatus

/-- Characters treated as whitespace.  Modelled from the spec: `mk::whitespace`
(`StringUtils.h` is not under `src/`) is the ASCII whitespace set used by the
protocol, spaces and tabs at minimum; we take the six ASCII whitespace
characters. -/
def isWhitespace (c : Char) : Bool :=
  c == ' ' || c == '\t' || c == '\n' || c == Char.ofNat 11 || c == Char.ofNat 12 || c == '\r'

/-- A `std::string_view` over the remaining line. -/
abbrev Str := List Char

/-- Function `nextStringArgument` from `ParsedQuery.cc`: strip leading whitespace, fail
with "missing argument" if nothing remains, otherwise return the maximal
leading non-whitespace run together with the rest of the line after it. -/
def nextStringArgument (s : Str) : Except String (Str × Str) :=
  let s1 := s.dropWhile isWhitespace
  if s1.isEmpty then .error "missing argument"
  else
    let argument := s1.takeWhile (fun c => !isWhitespace c)
    .ok (argument, s1.drop argument.length)

/-- Value of a run of decimal digits. -/
def natOfDigits (ds : Str) : Nat :=
  ds.foldl (fun a c => 10 * a + (c.toNat - 48)) 0

/-- Model of `std::from_chars` on `int`, as used by `nextNonNegativeIntegerArgument`:
an optional leading minus sign followed by a nonempty digit run making up the
whole argument, with the value in the range of a 32-bit `int`; anything else
(empty run, stray characters, overflow) is rejected. -/
def fromCharsInt (arg : Str) : Option Int :=
  let (neg, ds) := match arg with
    | '-' :: r => (true, r)
    | _ => (false, arg)
  if ds.isEmpty || !ds.all Char.isDigit then none
  else
    let v : Int := (if neg then -1 else 1) * (natOfDigits ds : Int)
    if v < -(2 ^ 31) || 2 ^ 31 ≤ v then none else some v

/-- Function `nextNonNegativeIntegerArgument` from `ParsedQuery.cc`: take the next
token, parse it as a base-10 `int`, and fail with "expected non-negative
integer" if the parse is incomplete, non-numeric, out of range, or the value
is negative. -/
def nextNonNegativeIntegerArgument (s : Str) : Except String (Nat × Str) :=
  match nextStringArgument s with
  | .error e => .error e
  | .ok (argument, rest) =>
    match fromCharsInt argument with
    | none => .error "expected non-negative integer"
    | some v =>
      if v < 0 then .error "expected non-negative integer" else .ok (v.toNat, rest)

/-- Function `checkNoArguments` from `ParsedQuery.cc`. -/
def checkNoArguments (s : Str) : Except String Unit :=
  if s.isEmpty then .ok () else .error "superfluous argument(s)"

/-- Relational operators.  Modelled from the spec: the operator registry
(`opids.cc`) is not under `src/`; spec section 2 and section 6 list equality,
substring, regex and numeric comparators, their case-insensitive variants, and
their negations. -/
inductive RelOp
  | equal
  | not_equal
  | matches
  | doesnt_match
  | equal_icase
  | not_equal_icase
  | matches_icase
  | doesnt_match_icase
  | less
  | greater_or_equal
  | greater
  | less_or_equal
deriving DecidableEq, Repr

/-- Modelled from the spec: canonical negation of each relational operator
(spec section 3, "Each operator has a canonical negation"). -/
def RelOp.negateOp : RelOp → RelOp
  | .equal => .not_equal
  | .not_equal => .equal
  | .matches => .doesnt_match
  | .doesnt_match => .matches
  | .equal_icase => .not_equal_icase
  | .not_equal_icase => .equal_icase
  | .matches_icase => .doesnt_match_icase
  | .doesnt_match_icase => .matches_icase
  | .less => .greater_or_equal
  | .greater_or_equal => .less
  | .greater => .less_or_equal
  | .less_or_equal => .greater

/-- Modelled from the spec: `relationalOperatorForName` (`opids.cc` is not
under `src/`) maps the protocol's operator spellings to operator kinds and
fails on an unknown name. -/
def relationalOperatorForName (s : Str) : Except String RelOp :=
  if s = "=".data then .ok .equal
  else if s = "!=".data then .ok .not_equal
  else if s = "~".data then .ok .matches
  else if s = "!~".data then .ok .doesnt_match
  else if s = "=~".data then .ok .equal_icase
  else if s = "!=~".data then .ok .not_equal_icase
  else if s = "~~".data then .ok .matches_icase
  else if s = "!~~".data then .ok .doesnt_match_icase
  else if s = "<".data then .ok .less
  else if s = ">=".data then .ok .greater_or_equal
  else if s = ">".data then .ok .greater
  else if s = "<=".data then .ok .less_or_equal
  else .error "invalid relational operator"

/-- Enumeration `Filter::Kind` from `Filter.h`: the kind tag carried by every filter
node. -/
inductive FKind
  | row
  | stats
  | wait_condition
deriving DecidableEq, Repr

/-- The filter tree.  A leaf (`columnFilter`) records the column name, the
relational operator and the rhs literal handed to `Column::createFilter`;
`anding`/`oring` are the `AndingFilter`/`OringFilter` nodes holding their
subfilters in vector order. -/
inductive Filter
  | columnFilter (kind : FKind) (columnName : String) (oper : RelOp) (value : String)
  | anding (kind : FKind) (subfilters : List Filter)
  | oring (kind : FKind) (subfilters : List Filter)

mutual
/-- Modelled from the spec: `Filter::negate` (the filter classes are not under
`src/`) is a De Morgan recursion at `And`/`Or` nodes and the operator
complement at leaves (spec section 4.4). -/
def Filter.negate : Filter → Filter
  | .columnFilter k c o v => .columnFilter k c o.negateOp v
  | .anding k subs => .oring k (negateAll subs)
  | .oring k subs => .anding k (negateAll subs)

def negateAll : List Filter → List Filter
  | [] => []
  | f :: fs => f.negate :: negateAll fs
end

mutual
/-- Modelled from the spec: filter evaluation `accepts(row, ...)` (spec
section 4.4); a leaf's verdict is delegated to the column's value semantics,
abstracted here as the environment `ev`; an `And` node accepts when all of its
subfilters do, an `Or` node when any of them does. -/
def Filter.accepts {Row : Type} (ev : String → RelOp → String → Row → Bool) :
    Filter → Row → Bool
  | .columnFilter _ c o v, r => ev c o v r
  | .anding _ subs, r => acceptsAll ev subs r
  | .oring _ subs, r => acceptsAny ev subs r

def acceptsAll {Row : Type} (ev : String → RelOp → String → Row → Bool) :
    List Filter → Row → Bool
  | [], _ => true
  | f :: fs, r => Filter.accepts ev f r && acceptsAll ev fs r

def acceptsAny {Row : Type} (ev : String → RelOp → String → Row → Bool) :
    List Filter → Row → Bool
  | [], _ => false
  | f :: fs, r => Filter.accepts ev f r || acceptsAny ev fs r
end

/-- Modelled from the spec: `AndingFilter::make` (`AndingFilter.cc` is not
under `src/`).  Zero subfilters yield the identity element, an `And` node with
no children, which is the trivially-true filter; one subfilter is returned
unchanged; otherwise an `And` node of the given kind is built. -/
def AndingFilter.make (kind : FKind) (subfilters : List Filter) : Filter :=
  match subfilters with
  | [] => .anding kind []
  | [f] => f
  | subs => .anding kind subs

/-- Modelled from the spec: `OringFilter::make` (`OringFilter.cc` is not under
`src/`).  Zero subfilters yield the identity element, an `Or` node with no
children, which is the trivially-false filter; one subfilter is returned
unchanged; otherwise an `Or` node of the given kind is built. -/
def OringFilter.make (kind : FKind) (subfilters : List Filter) : Filter :=
  match subfilters with
  | [] => .oring kind []
  | [f] => f
  | subs => .oring kind subs

/-- An output column: either a column registered in the table, or the
`NullColumn` placeholder produced for unknown names on `Columns:` lines. -/
inductive Column
  | real (name : String)
  | nullColumn (name : String)
deriving DecidableEq, Repr

def Column.name : Column → String
  | .real n => n
  | .nullColumn n => n

/-- Modelled from the spec (section 4.3): `Column::createFilter` produces a
leaf filter for a `(kind, operator, rhs)` triple; `NullColumn` refuses filter
creation.  The per-value-type rhs validation of the concrete column classes is
outside `src/`; a registered column is modelled as always yielding a leaf that
records the triple. -/
def Column.createFilter : Column → FKind → RelOp → String → Except String Filter
  | .real n, k, o, v => .ok (.columnFilter k n o v)
  | .nullColumn _, _, _, _ => .error "filter creation not supported by this column"

/-- A table, reduced to what the parser consumes: its name, its registered
column names in registration order, and the set of primary keys that
`Table::get` resolves to a non-null row. -/
structure Table where
  name : String
  columnNames : List String
  objects : List String

/-- Modelled from the spec: `Table::column` (`Table.cc` is not under `src/`)
resolves a registered column name and fails on an unknown one; unknown column
names are fatal on `Filter:`, `Stats:` and `WaitCondition:` lines (spec
section 4.3). -/
def Table.column (t : Table) (colname : Str) : Except String Column :=
  if String.mk colname ∈ t.columnNames then .ok (.real (String.mk colname))
  else .error ("Table '" ++ t.name ++ "' has no column '" ++ String.mk colname ++ "'")

/-- The aggregation kinds of the `stats_ops` registry in `ParsedQuery.cc`. -/
inductive AggKind
  | sum
  | min
  | max
  | avg
  | std
  | suminv
  | avginv
deriving DecidableEq, Repr

/-- The `stats_ops` map from `ParsedQuery.cc`, keyed by aggregation name. -/
def stats_ops (s : Str) : Option AggKind :=
  if s = "sum".data then some .sum
  else if s = "min".data then some .min
  else if s = "max".data then some .max
  else if s = "avg".data then some .avg
  else if s = "std".data then some .std
  else if s = "suminv".data then some .suminv
  else if s = "avginv".data then some .avginv
  else none

/-- A stats column: `StatsColumnCount` owns a filter, `StatsColumnOp` owns an
aggregation factory (here the aggregation kind) and a column. -/
inductive StatsColumn
  | count (f : Filter)
  | op (agg : AggKind) (column : Column)

/-- Modelled from the spec (section 4.5): `stealFilter` hands back the filter
embedded in a `StatsColumnCount`; a `StatsColumnOp` must fail (the
`StatsColumn` classes are not under `src/`). -/
def StatsColumn.stealFilter : StatsColumn → Except String Filter
  | .count f => .ok f
  | .op _ _ => .error "not supported for this stats column type"

/-- Class `MinAggregation` from `ParsedQuery.cc`: the accumulator starts at 0 with a
first-update flag; the value domain `double` is modelled as `Rat`, which is
faithful for the comparisons and assignments the code performs. -/
structure MinAggregation where
  first_ : Bool
  sum_ : Rat
deriving DecidableEq, Repr

/-- The freshly-constructed `MinAggregation` (member initializers
`first_{true}`, `sum_{0}`). -/
def MinAggregation.init : MinAggregation := { first_ := true, sum_ := 0 }

/-- Method `MinAggregation::update`: replace the accumulator when this is the first
update or the new value is smaller, then clear the flag. -/
def MinAggregation.update (a : MinAggregation) (value : Rat) : MinAggregation :=
  { first_ := false
    sum_ := if a.first_ || decide (value < a.sum_) then value else a.sum_ }

/-- Method `MinAggregation::value`. -/
def MinAggregation.value (a : MinAggregation) : Rat := a.sum_

/-- Class `MaxAggregation` from `ParsedQuery.cc`, mirror image of `MinAggregation`. -/
structure MaxAggregation where
  first_ : Bool
  sum_ : Rat
deriving DecidableEq, Repr

/-- The freshly-constructed `MaxAggregation`. -/
def MaxAggregation.init : MaxAggregation := { first_ := true, sum_ := 0 }

/-- Method `MaxAggregation::update`: replace the accumulator when this is the first
update or the new value is larger, then clear the flag. -/
def MaxAggregation.update (a : MaxAggregation) (value : Rat) : MaxAggregation :=
  { first_ := false
    sum_ := if a.first_ || decide (a.sum_ < value) then value else a.sum_ }

/-- Method `MaxAggregation::value`. -/
def MaxAggregation.value (a : MaxAggregation) : Rat := a.sum_

/-- Enumeration `OutputFormat` from `OutputBuffer.h`. -/
inductive OutputFormat
  | csv
  | broken_csv
  | json
  | python3
deriving DecidableEq, Repr

/-- Enumeration `OutputBuffer::ResponseHeader`. -/
inductive ResponseHeader
  | off
  | fixed16
deriving DecidableEq, Repr

/-- The authorization principal: `NoAuthUser` by default, or the user resolved
by `AuthUser:`. -/
inductive User
  | noAuthUser
  | authUser (name : String)
deriving DecidableEq, Repr

/-- The ambient world the constructor consults: the system and steady clocks
(in seconds), the users the monitoring core can resolve, and the registered
trigger names. -/
structure Env where
  now_sys : Int
  now_steady : Int
  users : List String
  triggers : List String

/-- Modelled from the spec: `ICore::find_user` (not under `src/`); an unknown
user is a semantic error handled like syntax errors (spec section 7), so the
lookup fails on a name the core cannot resolve. -/
def findUser (env : Env) (name : String) : Except String User :=
  if name ∈ env.users then .ok (.authUser name) else .error "unknown user"

/-- Modelled from the spec: `Triggers::find` (not under `src/`) resolves a
registered trigger name and fails on an unknown one. -/
def findTrigger (env : Env) (name : String) : Except String String :=
  if name ∈ env.triggers then .ok name else .error "invalid trigger"

/-- Model of `std::set` insertion for `all_column_names` (the element order of the C++
ordered set is irrelevant to the claims; we keep insertion order). -/
def insertName (names : List String) (n : String) : List String :=
  if n ∈ names then names else names ++ [n]

/-- The mutable members of `ParsedQuery` together with the constructor-local
stacks `filters` and `wait_conditions`.  The stacks and `stats_columns` are
lists whose head is the vector's back (top of stack); `columns` is kept in
vector order since it is only ever pushed to. -/
structure QState where
  filters : List Filter
  wait_conditions : List Filter
  stats_columns : List StatsColumn
  columns : List Column
  all_column_names : List String
  user : User
  limit : Option Nat
  time_limit : Option (Nat × Int)
  wait_timeout : Option Nat
  wait_trigger : Option String
  wait_object : Option String
  separators : Nat × Nat × Nat × Nat
  output_format : OutputFormat
  response_header : ResponseHeader
  show_column_headers : Bool
  keepalive : Bool
  timezone_offset : Int

/-- The state at the start of the constructor.  The member defaults live in
`ParsedQuery.h`, which is not under `src/`; they are modelled from the spec
(no-auth user, no limits, no wait parameters, historical CSV separators,
headers shown by default) and none of the claims depends on them beyond the
no-auth user, which `ParsedQuery.cc` line 62 does establish. -/
def ParsedQuery.initial : QState :=
  { filters := []
    wait_conditions := []
    stats_columns := []
    columns := []
    all_column_names := []
    user := .noAuthUser
    limit := none
    time_limit := none
    wait_timeout := none
    wait_trigger := none
    wait_object := none
    separators := (10, 59, 44, 124)
    output_format := .broken_csv
    response_header := .off
    show_column_headers := true
    keepalive := false
    timezone_offset := 0 }

/-- The message built by `stack_underflow` in `ParsedQuery.cc`. -/
def stackUnderflowMsg (expected actual : Nat) : String :=
  "cannot combine filters: expecting " ++ toString expected ++ " " ++
    (if expected = 1 then "filter" else "filters") ++ ", but only " ++
    toString actual ++ " " ++ (if actual = 1 then "is" else "are") ++ " on stack"

/-- The pop loop of `ParsedQuery::parseAndOrLine`: pop `remaining` more
filters off the stack into `subfilters` (whose length is the loop counter `i`
of the C++ loop), failing with a stack underflow once the stack runs dry.  On
underflow every filter has already been popped, so the error carries the
emptied stack. -/
def popLoop (expected : Nat) :
    Nat → List Filter → List Filter →
    Except (String × List Filter) (List Filter × List Filter)
  | 0, subfilters, stack => .ok (subfilters, stack)
  | _ + 1, subfilters, [] => .error (stackUnderflowMsg expected subfilters.length, [])
  | m + 1, subfilters, top :: rest => popLoop expected m (subfilters ++ [top]) rest

/-- Method `ParsedQuery::parseAndOrLine`: read the argument `N`, pop `N` filters,
reverse them, and push the combined filter built by `connective`.  The error
value carries the stack as the exception leaves it. -/
def parseAndOrLine (line : Str) (kind : FKind)
    (connective : FKind → List Filter → Filter) (filters : List Filter) :
    Except (String × List Filter) (List Filter) :=
  match nextNonNegativeIntegerArgument line with
  | .error e => .error (e, filters)
  | .ok (number, _) =>
    match popLoop number number [] filters with
    | .error es => .error es
    | .ok (subfilters, rest) => .ok (connective kind subfilters.reverse :: rest)

/-- Method `ParsedQuery::parseNegateLine`: no arguments allowed, pop the top filter
and push its negation.  No mutation precedes any throw. -/
def parseNegateLine (line : Str) (filters : List Filter) :
    Except String (List Filter) :=
  match checkNoArguments line with
  | .error e => .error e
  | .ok _ =>
    match filters with
    | [] => .error (stackUnderflowMsg 1 0)
    | top :: rest => .ok (top.negate :: rest)

/-- The pop loop of `ParsedQuery::parseStatsAndOrLine`: like `popLoop` but
over the stats-column stack, stealing each popped column's embedded filter.
A failing `stealFilter` happens before the `pop_back`, so its error carries
the stack with that column still on top. -/
def popStatsLoop (expected : Nat) :
    Nat → List Filter → List StatsColumn →
    Except (String × List StatsColumn) (List Filter × List StatsColumn)
  | 0, subfilters, stack => .ok (subfilters, stack)
  | _ + 1, subfilters, [] => .error (stackUnderflowMsg expected subfilters.length, [])
  | m + 1, subfilters, top :: rest =>
    match top.stealFilter with
    | .error e => .error (e, top :: rest)
    | .ok f => popStatsLoop expected m (subfilters ++ [f]) rest

/-- Method `ParsedQuery::parseStatsAndOrLine`: read `N`, steal the filters of the top
`N` stats columns, reverse them, and push one `StatsColumnCount` holding the
combination at `Kind::stats`. -/
def parseStatsAndOrLine (line : Str)
    (connective : FKind → List Filter → Filter) (stats_columns : List StatsColumn) :
    Except (String × List StatsColumn) (List StatsColumn) :=
  match nextNonNegativeIntegerArgument line with
  | .error e => .error (e, stats_columns)
  | .ok (number, _) =>
    match popStatsLoop number number [] stats_columns with
    | .error es => .error es
    | .ok (subfilters, rest) =>
      .ok (.count (connective .stats subfilters.reverse) :: rest)

/-- Method `ParsedQuery::parseStatsNegateLine`: no arguments allowed, steal the top
stats column's filter and push a `StatsColumnCount` of its negation.  No
mutation precedes any throw. -/
def parseStatsNegateLine (line : Str) (stats_columns : List StatsColumn) :
    Except String (List StatsColumn) :=
  match checkNoArguments line with
  | .error e => .error e
  | .ok _ =>
    match stats_columns with
    | [] => .error (stackUnderflowMsg 1 0)
    | top :: rest =>
      match top.stealFilter with
      | .error e => .error e
      | .ok to_negate => .ok (.count to_negate.negate :: rest)

/-- Method `ParsedQuery::parseStatsLine`: if the first token is a registered
aggregation name, the next token is a column name and a `StatsColumnOp` is
pushed; otherwise the first token is a column name, the next token a
relational-operator name, and the remainder of the line after one whitespace
skip (not trimmed on the right) is the rhs of a stats-kind filter wrapped in a
`StatsColumnCount`.  Either way the column name is recorded and
`show_column_headers` is set to `false`.  No mutation precedes any throw. -/
def parseStatsLine (line : Str) (make_column : Str → Except String Column)
    (st : QState) : Except String QState :=
  match nextStringArgument line with
  | .error e => .error e
  | .ok (col_or_op, line1) =>
    match stats_ops col_or_op with
    | none =>
      match nextStringArgument line1 with
      | .error e => .error e
      | .ok (op_name, line2) =>
        match relationalOperatorForName op_name with
        | .error e => .error e
        | .ok rel_op =>
          let line3 := line2.dropWhile isWhitespace
          match make_column col_or_op with
          | .error e => .error e
          | .ok col =>
            match col.createFilter .stats rel_op (String.mk line3) with
            | .error e => .error e
            | .ok f =>
              .ok { st with
                      stats_columns := .count f :: st.stats_columns
                      all_column_names :=
                        insertName st.all_column_names (String.mk col_or_op)
                      show_column_headers := false }
    | some agg =>
      match nextStringArgument line1 with
      | .error e => .error e
      | .ok (column_name, _) =>
        match make_column column_name with
        | .error e => .error e
        | .ok col =>
          .ok { st with
                  stats_columns := .op agg col :: st.stats_columns
                  all_column_names :=
                    insertName st.all_column_names (String.mk column_name)
                  show_column_headers := false }

/-- Method `ParsedQuery::parseFilterLine` (used for `Filter:` and `WaitCondition:`
lines): first token is the column name, second the relational-operator name,
and the remainder after one whitespace skip is the rhs literal; the created
filter (always built at `Kind::row`) is pushed onto the given stack and the
column name recorded.  No mutation precedes any throw. -/
def parseFilterLine (line : Str) (filters : List Filter)
    (make_column : Str → Except String Column) (names : List String) :
    Except String (List Filter × List String) :=
  match nextStringArgument line with
  | .error e => .error e
  | .ok (column_name, line1) =>
    match nextStringArgument line1 with
    | .error e => .error e
    | .ok (op_name, line2) =>
      match relationalOperatorForName op_name with
      | .error e => .error e
      | .ok rel_op =>
        let line3 := line2.dropWhile isWhitespace
        match make_column column_name with
        | .error e => .error e
        | .ok col =>
          match col.createFilter .row rel_op (String.mk line3) with
          | .error e => .error e
          | .ok sub_filter =>
            .ok (sub_filter :: filters,
                 insertName names (String.mk column_name))

/-- Method `ParsedQuery::parseAuthUserHeader`: the whole (left-stripped) remainder of
the line is the user name; the principal is only assigned when the lookup
succeeds. -/
def parseAuthUserHeader (line : Str) (find_user : String → Except String User)
    (st : QState) : Except String QState :=
  match find_user (String.mk line) with
  | .error e => .error e
  | .ok u => .ok { st with user := u }

lemma dropWhile_length_le (p : Char → Bool) (l : Str) :
    (l.dropWhile p).length ≤ l.length :=
  (List.dropWhile_suffix p).sublist.length_le

/-- The loop of `ParsedQuery::parseColumnsLine`: each iteration takes the run
up to the first whitespace as a column name, skips the following whitespace,
resolves the name (falling back to a `NullColumn` for unknown names), appends
the column and records the name. -/
def parseColumnsLoop (make_column : Str → Except String Column) :
    Str → List Column → List String → List Column × List String
  | [], cols, names => (cols, names)
  | c :: rest, cols, names =>
    let column_name := (c :: rest).takeWhile (fun x => !isWhitespace x)
    let remaining := ((c :: rest).drop column_name.length).dropWhile isWhitespace
    let column := match make_column column_name with
      | .ok col => col
      | .error _ => Column.nullColumn (String.mk column_name)
    parseColumnsLoop make_column remaining (cols ++ [column])
      (insertName names (String.mk column_name))
termination_by l _ _ => l.length
decreasing_by
  simp only [List.length_cons]
  by_cases h : isWhitespace c
  · have h1 : ((c :: rest).takeWhile (fun x => !isWhitespace x)) = [] := by
      simp [List.takeWhile_cons, h]
    rw [h1]
    simp only [List.length_nil, List.drop_zero, List.dropWhile_cons, h, if_true]
    exact Nat.lt_succ_of_le (dropWhile_length_le _ _)
  · have h1 : 1 ≤ ((c :: rest).takeWhile (fun x => !isWhitespace x)).length := by
      simp [List.takeWhile_cons, h]
    calc (((c :: rest).drop ((c :: rest).takeWhile (fun x => !isWhitespace x)).length).dropWhile
            isWhitespace).length
        ≤ ((c :: rest).drop ((c :: rest).takeWhile (fun x => !isWhitespace x)).length).length :=
          dropWhile_length_le _ _
      _ < rest.length + 1 := by
          simp only [List.length_drop, List.length_cons]
          omega

/-- Method `ParsedQuery::parseColumnsLine`: append all named columns and then
unconditionally clear `show_column_headers`.  This function cannot fail: the
column lookup's failure is caught inside the loop and replaced by a
`NullColumn`. -/
def parseColumnsLine (line : Str) (make_column : Str → Except String Column)
    (st : QState) : QState :=
  let (cols, names) := parseColumnsLoop make_column line st.columns st.all_column_names
  { st with
      columns := cols
      all_column_names := names
      show_column_headers := false }

/-- Method `ParsedQuery::parseSeparatorsLine`: four integer arguments, each truncated
to a single byte (`static_cast<char>`); the separators member is assigned only
after all four parses succeeded. -/
def parseSeparatorsLine (line : Str) (st : QState) : Except String QState :=
  match nextNonNegativeIntegerArgument line with
  | .error e => .error e
  | .ok (dsep, l1) =>
    match nextNonNegativeIntegerArgument l1 with
    | .error e => .error e
    | .ok (fsep, l2) =>
      match nextNonNegativeIntegerArgument l2 with
      | .error e => .error e
      | .ok (lsep, l3) =>
        match nextNonNegativeIntegerArgument l3 with
        | .error e => .error e
        | .ok (hsep, _) =>
          .ok { st with separators := (dsep % 256, fsep % 256, lsep % 256, hsep % 256) }

/-- The `formats` map of `ParsedQuery.cc`: note that `CSV` and `csv` are
distinct entries and that `python` is an alias of `python3`. -/
def formats (s : Str) : Option OutputFormat :=
  if s = "CSV".data then some .csv
  else if s = "csv".data then some .broken_csv
  else if s = "json".data then some .json
  else if s = "python".data then some .python3
  else if s = "python3".data then some .python3
  else none

/-- The error message of `ParsedQuery::parseOutputFormatLine`, listing the map
entries in the `std::map` iteration order (lexicographic by key). -/
def outputFormatErrorMsg : String :=
  "missing/invalid output format, use one of " ++
    "'CSV', 'csv', 'json', 'python', 'python3'"

/-- Method `ParsedQuery::parseOutputFormatLine`: look the first token up in
`formats`, failing on an unknown spelling. -/
def parseOutputFormatLine (line : Str) (st : QState) : Except String QState :=
  match nextStringArgument line with
  | .error e => .error e
  | .ok (value, _) =>
    match formats value with
    | none => .error outputFormatErrorMsg
    | some f => .ok { st with output_format := f }

/-- Method `ParsedQuery::parseColumnHeadersLine`. -/
def parseColumnHeadersLine (line : Str) (st : QState) : Except String QState :=
  match nextStringArgument line with
  | .error e => .error e
  | .ok (value, _) =>
    if value = "on".data then .ok { st with show_column_headers := true }
    else if value = "off".data then .ok { st with show_column_headers := false }
    else .error "expected 'on' or 'off'"

/-- Method `ParsedQuery::parseKeepAliveLine`. -/
def parseKeepAliveLine (line : Str) (st : QState) : Except String QState :=
  match nextStringArgument line with
  | .error e => .error e
  | .ok (value, _) =>
    if value = "on".data then .ok { st with keepalive := true }
    else if value = "off".data then .ok { st with keepalive := false }
    else .error "expected 'on' or 'off'"

/-- Method `ParsedQuery::parseResponseHeaderLine`. -/
def parseResponseHeaderLine (line : Str) (st : QState) : Except String QState :=
  match nextStringArgument line with
  | .error e => .error e
  | .ok (value, _) =>
    if value = "off".data then .ok { st with response_header := .off }
    else if value = "fixed16".data then .ok { st with response_header := .fixed16 }
    else .error "expected 'off' or 'fixed16'"

/-- Method `ParsedQuery::parseLimitLine`. -/
def parseLimitLine (line : Str) (st : QState) : Except String QState :=
  match nextNonNegativeIntegerArgument line with
  | .error e => .error e
  | .ok (n, _) => .ok { st with limit := some n }

/-- Method `ParsedQuery::parseTimelimitLine`: the duration in seconds together with
the deadline `steady_clock::now() + duration`. -/
def parseTimelimitLine (line : Str) (env : Env) (st : QState) :
    Except String QState :=
  match nextNonNegativeIntegerArgument line with
  | .error e => .error e
  | .ok (n, _) => .ok { st with time_limit := some (n, env.now_steady + n) }

/-- Method `ParsedQuery::parseWaitTimeoutLine` (milliseconds). -/
def parseWaitTimeoutLine (line : Str) (st : QState) : Except String QState :=
  match nextNonNegativeIntegerArgument line with
  | .error e => .error e
  | .ok (n, _) => .ok { st with wait_timeout := some n }

/-- Method `ParsedQuery::parseWaitTriggerLine`. -/
def parseWaitTriggerLine (line : Str) (env : Env) (st : QState) :
    Except String QState :=
  match nextStringArgument line with
  | .error e => .error e
  | .ok (name, _) =>
    match findTrigger env (String.mk name) with
    | .error e => .error e
    | .ok t => .ok { st with wait_trigger := some t }

/-- Method `ParsedQuery::parseWaitObjectLine`: the whole (left-stripped) remainder is
the primary key; the row handle is assigned BEFORE the null check, so a failed
lookup leaves a null `wait_object` behind and then throws. -/
def parseWaitObjectLine (line : Str) (table : Table) (st : QState) :
    Except (String × QState) QState :=
  let looked_up := if String.mk line ∈ table.objects then some (String.mk line) else none
  match looked_up with
  | none =>
    .error ("primary key '" ++ String.mk line ++
              "' not found or not supported by this table",
            { st with wait_object := none })
  | some pk => .ok { st with wait_object := some pk }

/-- Model of `std::chrono::round` to a multiple of 1800 seconds: nearest multiple,
ties to even.  For the positive divisor 1800, `Int.ediv`/`Int.emod` give the
floor quotient and a remainder in `[0, 1800)`. -/
def roundTiesEven1800 (d : Int) : Int :=
  let q := Int.ediv d 1800
  let r := Int.emod d 1800
  if 2 * r < 1800 then q
  else if 1800 < 2 * r then q + 1
  else if Int.emod q 2 = 0 then q else q + 1

/-- Method `ParsedQuery::parseLocaltimeLine`: the difference between the client's
unix time and the server's current time is rounded to the nearest half hour
(ties to even); an absolute offset of 24 hours or more fails, otherwise the
offset (in seconds) is stored.  The system clock is modelled at second
precision. -/
def parseLocaltimeLine (line : Str) (env : Env) (st : QState) :
    Except String QState :=
  match nextNonNegativeIntegerArgument line with
  | .error e => .error e
  | .ok (t, _) =>
    let offset : Int := 1800 * roundTiesEven1800 ((t : Int) - env.now_sys)
    if 86400 ≤ offset.natAbs then
      .error "timezone difference greater than or equal to 24 hours"
    else .ok { st with timezone_offset := offset }

/-- One iteration of the header-dispatch loop in the `ParsedQuery`
constructor: split the line at the first `':'`, strip the leading whitespace
of the remainder, and run the sub-parser selected by the (case-sensitively
matched) header.  The error value carries the header together with the state
as the exception leaves it. -/
def parseLine (env : Env) (table : Table) (st : QState) (line_str : String) :
    Except (String × String × QState) QState :=
  let line0 := line_str.data
  let header := line0.takeWhile (fun c => c ≠ ':')
  let line := (line0.drop (min line0.length (header.length + 1))).dropWhile isWhitespace
  let hdr := String.mk header
  if hdr = "Filter" then
    match parseFilterLine line st.filters table.column st.all_column_names with
    | .error e => .error (hdr, e, st)
    | .ok (fs, ns) => .ok { st with filters := fs, all_column_names := ns }
  else if hdr = "Or" then
    match parseAndOrLine line .row OringFilter.make st.filters with
    | .error (e, fs) => .error (hdr, e, { st with filters := fs })
    | .ok fs => .ok { st with filters := fs }
  else if hdr = "And" then
    match parseAndOrLine line .row AndingFilter.make st.filters with
    | .error (e, fs) => .error (hdr, e, { st with filters := fs })
    | .ok fs => .ok { st with filters := fs }
  else if hdr = "Negate" then
    match parseNegateLine line st.filters with
    | .error e => .error (hdr, e, st)
    | .ok fs => .ok { st with filters := fs }
  else if hdr = "StatsOr" then
    match parseStatsAndOrLine line OringFilter.make st.stats_columns with
    | .error (e, cs) => .error (hdr, e, { st with stats_columns := cs })
    | .ok cs => .ok { st with stats_columns := cs }
  else if hdr = "StatsAnd" then
    match parseStatsAndOrLine line AndingFilter.make st.stats_columns with
    | .error (e, cs) => .error (hdr, e, { st with stats_columns := cs })
    | .ok cs => .ok { st with stats_columns := cs }
  else if hdr = "StatsNegate" then
    match parseStatsNegateLine line st.stats_columns with
    | .error e => .error (hdr, e, st)
    | .ok cs => .ok { st with stats_columns := cs }
  else if hdr = "Stats" then
    match parseStatsLine line table.column st with
    | .error e => .error (hdr, e, st)
    | .ok st' => .ok st'
  else if hdr = "Columns" then
    .ok (parseColumnsLine line table.column st)
  else if hdr = "ColumnHeaders" then
    match parseColumnHeadersLine line st with
    | .error e => .error (hdr, e, st)
    | .ok st' => .ok st'
  else if hdr = "Limit" then
    match parseLimitLine line st with
    | .error e => .error (hdr, e, st)
    | .ok st' => .ok st'
  else if hdr = "Timelimit" then
    match parseTimelimitLine line env st with
    | .error e => .error (hdr, e, st)
    | .ok st' => .ok st'
  else if hdr = "AuthUser" then
    match parseAuthUserHeader line (findUser env) st with
    | .error e => .error (hdr, e, st)
    | .ok st' => .ok st'
  else if hdr = "Separators" then
    match parseSeparatorsLine line st with
    | .error e => .error (hdr, e, st)
    | .ok st' => .ok st'
  else if hdr = "OutputFormat" then
    match parseOutputFormatLine line st with
    | .error e => .error (hdr, e, st)
    | .ok st' => .ok st'
  else if hdr = "ResponseHeader" then
    match parseResponseHeaderLine line st with
    | .error e => .error (hdr, e, st)
    | .ok st' => .ok st'
  else if hdr = "KeepAlive" then
    match parseKeepAliveLine line st with
    | .error e => .error (hdr, e, st)
    | .ok st' => .ok st'
  else if hdr = "WaitCondition" then
    match parseFilterLine line st.wait_conditions table.column st.all_column_names with
    | .error e => .error (hdr, e, st)
    | .ok (fs, ns) => .ok { st with wait_conditions := fs, all_column_names := ns }
  else if hdr = "WaitConditionAnd" then
    match parseAndOrLine line .wait_condition AndingFilter.make st.wait_conditions with
    | .error (e, fs) => .error (hdr, e, { st with wait_conditions := fs })
    | .ok fs => .ok { st with wait_conditions := fs }
  else if hdr = "WaitConditionOr" then
    match parseAndOrLine line .wait_condition OringFilter.make st.wait_conditions with
    | .error (e, fs) => .error (hdr, e, { st with wait_conditions := fs })
    | .ok fs => .ok { st with wait_conditions := fs }
  else if hdr = "WaitConditionNegate" then
    match parseNegateLine line st.wait_conditions with
    | .error e => .error (hdr, e, st)
    | .ok fs => .ok { st with wait_conditions := fs }
  else if hdr = "WaitTrigger" then
    match parseWaitTriggerLine line env st with
    | .error e => .error (hdr, e, st)
    | .ok st' => .ok st'
  else if hdr = "WaitObject" then
    match parseWaitObjectLine line table st with
    | .error (e, st') => .error (hdr, e, st')
    | .ok st' => .ok st'
  else if hdr = "WaitTimeout" then
    match parseWaitTimeoutLine line st with
    | .error e => .error (hdr, e, st)
    | .ok st' => .ok st'
  else if hdr = "Localtime" then
    match parseLocaltimeLine line env st with
    | .error e => .error (hdr, e, st)
    | .ok st' => .ok st'
  else
    .error (hdr, "undefined request header", st)

/-- The record `OutputBuffer::setError` writes for a caught per-line failure
(response code `bad_request`). -/
def processingErrorMsg (header tablename msg : String) : String :=
  "while processing header '" ++ header ++ "' for table '" ++ tablename ++
    "': " ++ msg

/-- The catch at the header-dispatch boundary: a failing sub-parser has its
message recorded on the output buffer as a `bad_request` (modelled from the
spec: `OutputBuffer` is not under `src/`; errors accumulate in order) and the
loop moves on with the state the exception left behind. -/
def applyLine (env : Env) (table : Table) (stout : QState × List String)
    (line_str : String) : QState × List String :=
  match parseLine env table stout.1 line_str with
  | .ok st' => (st', stout.2)
  | .error (hdr, msg, st') =>
    (st', stout.2 ++ [processingErrorMsg hdr table.name msg])

/-- The header loop of the `ParsedQuery` constructor. -/
def processLines (env : Env) (table : Table) (lines : List String)
    (stout : QState × List String) : QState × List String :=
  lines.foldl (applyLine env table) stout

/-- The immutable plan the constructor leaves behind, together with the
errors recorded on the output buffer.  `stats_columns` is presented in vector
order (first pushed first). -/
structure Plan where
  columns : List Column
  stats_columns : List StatsColumn
  all_column_names : List String
  filter : Filter
  wait_condition : Filter
  user : User
  limit : Option Nat
  time_limit : Option (Nat × Int)
  wait_timeout : Option Nat
  wait_trigger : Option String
  wait_object : Option String
  separators : Nat × Nat × Nat × Nat
  output_format : OutputFormat
  response_header : ResponseHeader
  show_column_headers : Bool
  keepalive : Bool
  timezone_offset : Int
  errors : List String

/-- The `ParsedQuery` constructor: process every header line, then, if both
the output-column list and the stats-column list are empty, take every column
of the table in registration order and force `show_column_headers`; finally
build the two filter roots by combining the remaining stacks with
`AndingFilter::make` (the stacks are reversed because the head of our list is
the back of the C++ vector). -/
def ParsedQuery.build (env : Env) (table : Table) (lines : List String) : Plan :=
  let stout := processLines env table lines (ParsedQuery.initial, [])
  let st := stout.1
  let defaulted := st.columns.isEmpty && st.stats_columns.isEmpty
  { columns := if defaulted then table.columnNames.map Column.real else st.columns
    stats_columns := st.stats_columns.reverse
    all_column_names :=
      if defaulted then table.columnNames.foldl insertName st.all_column_names
      else st.all_column_names
    filter := AndingFilter.make .row st.filters.reverse
    wait_condition := AndingFilter.make .wait_condition st.wait_conditions.reverse
    user := st.user
    limit := st.limit
    time_limit := st.time_limit
    wait_timeout := st.wait_timeout
    wait_trigger := st.wait_trigger
    wait_object := st.wait_object
    separators := st.separators
    output_format := st.output_format
    response_header := st.response_header
    show_column_headers := if defaulted then true else st.show_column_headers
    keepalive := st.keepalive
    timezone_offset := st.timezone_offset
    errors := stout.2 }

/-- The columns `TableServiceGroups::addColumns` registers (with the empty
prefix used by the `TableServiceGroups` constructor), in registration
order. -/
def TableServiceGroups.columnNames : List String :=
  ["name", "alias", "notes", "notes_url", "action_url",
   "members", "members_with_state",
   "worst_service_state", "num_services", "num_services_ok",
   "num_services_warn", "num_services_crit", "num_services_unknown",
   "num_services_pending", "num_services_handled_problems",
   "num_services_unhandled_problems", "num_services_hard_ok",
   "num_services_hard_warn", "num_services_hard_crit",
   "num_services_hard_unknown"]

/-- The service-groups table (`TableServiceGroups::name` is
"servicegroups"); the resolvable primary keys depend on the monitoring state
and are a parameter. -/
def TableServiceGroups.mkTable (objects : List String) : Table :=
  { name := "servicegroups"
    columnNames := TableServiceGroups.columnNames
    objects := objects }

/-! ## Helper lemmas -/

lemma popLoop_ok (e : Nat) :
    ∀ (n : Nat) (subs stack : List Filter), n ≤ stack.length →
      popLoop e n subs stack = .ok (subs ++ stack.take n, stack.drop n) := by
  intro n
  induction n with
  | zero => intro subs stack _; simp [popLoop]
  | succ m ih =>
    intro subs stack h
    match stack with
    | [] => simp at h
    | top :: rest =>
      have h' : m ≤ rest.length := by simpa using h
      simp [popLoop, ih (subs ++ [top]) rest h']

lemma popLoop_underflow (e : Nat) :
    ∀ (stack : List Filter) (n : Nat) (subs : List Filter), stack.length < n →
      popLoop e n subs stack =
        .error (stackUnderflowMsg e (subs.length + stack.length), []) := by
  intro stack
  induction stack with
  | nil =>
    intro n subs h
    match n with
    | 0 => simp at h
    | m + 1 => simp [popLoop]
  | cons top rest ih =>
    intro n subs h
    match n with
    | 0 => simp at h
    | m + 1 =>
      have h' : rest.length < m := by simp at h; omega
      have harith : (subs ++ [top]).length + rest.length =
          subs.length + (top :: rest).length := by
        simp only [List.length_append, List.length_cons, List.length_nil]
        omega
      calc popLoop e (m + 1) subs (top :: rest)
          = popLoop e m (subs ++ [top]) rest := by simp [popLoop]
        _ = .error (stackUnderflowMsg e ((subs ++ [top]).length + rest.length), []) :=
            ih m (subs ++ [top]) h'
        _ = .error (stackUnderflowMsg e (subs.length + (top :: rest).length), []) := by
            rw [harith]

lemma popStatsLoop_ok (e : Nat) :
    ∀ (tops : List Filter) (n : Nat) (subs : List Filter) (rest : List StatsColumn),
      tops.length = n →
      popStatsLoop e n subs (tops.map StatsColumn.count ++ rest) =
        .ok (subs ++ tops, rest) := by
  intro tops
  induction tops with
  | nil =>
    intro n subs rest h
    match n with
    | 0 => simp [popStatsLoop]
    | m + 1 => simp at h
  | cons t ts ih =>
    intro n subs rest h
    match n with
    | 0 => simp at h
    | m + 1 =>
      have h' : ts.length = m := by simpa using h
      simp [popStatsLoop, StatsColumn.stealFilter, ih m (subs ++ [t]) rest h']

lemma popStatsLoop_underflow (e : Nat) :
    ∀ (tops : List Filter) (n : Nat) (subs : List Filter),
      tops.length < n →
      popStatsLoop e n subs (tops.map StatsColumn.count) =
        .error (stackUnderflowMsg e (subs.length + tops.length), []) := by
  intro tops
  induction tops with
  | nil =>
    intro n subs h
    match n with
    | 0 => simp at h
    | m + 1 => simp [popStatsLoop]
  | cons t ts ih =>
    intro n subs h
    match n with
    | 0 => simp at h
    | m + 1 =>
      have h' : ts.length < m := by simp at h; omega
      have harith : (subs ++ [t]).length + ts.length =
          subs.length + (t :: ts).length := by
        simp only [List.length_append, List.length_cons, List.length_nil]
        omega
      calc popStatsLoop e (m + 1) subs ((t :: ts).map StatsColumn.count)
          = popStatsLoop e m (subs ++ [t]) (ts.map StatsColumn.count) := by
            simp [popStatsLoop, StatsColumn.stealFilter]
        _ = .error (stackUnderflowMsg e ((subs ++ [t]).length + ts.length), []) :=
            ih m (subs ++ [t]) h'
        _ = .error (stackUnderflowMsg e (subs.length + (t :: ts).length), []) := by
            rw [harith]

/-! ## Example filters and environments used by the witnesses -/

def fEx1 : Filter := .columnFilter .row "name" .equal "foo"

def fEx2 : Filter := .columnFilter .row "alias" .matches "bar"

def fEx3 : Filter := .columnFilter .row "notes" .less "baz"

def envEx : Env :=
  { now_sys := 0, now_steady := 0, users := ["admin"], triggers := [] }

def sgTable : Table := TableServiceGroups.mkTable []

/-! ## Claims -/

/-- Claim C1: an `And N`/`Or N` header line parsed against a stack holding at
least `N` filters pops exactly the top `N`, reverses them so that the combined
node's child order is their original push order, and pushes one combined
filter (a net stack-size change of `1 − N`); against a stack holding only
`M < N` filters it fails with the underflow message naming `N` expected and
`M` present.  The same function serves the row stack (`And`/`Or`) and the
wait-condition stack (`WaitConditionAnd`/`WaitConditionOr`), quantified here
over the kind and connective, and the same discipline holds via `stealFilter`
for `StatsAnd`/`StatsOr` on the stats-column stack.  (The top `N` of the
stack, head-first, are `tops`; their push order is `tops.reverse`.) -/
theorem c1_and_or_stack_discipline :
    (∀ (line : Str) (kind : FKind) (connective : FKind → List Filter → Filter)
       (tops rest : List Filter) (n : Nat) (lrest : Str),
       nextNonNegativeIntegerArgument line = .ok (n, lrest) →
       tops.length = n →
       parseAndOrLine line kind connective (tops ++ rest) =
         .ok (connective kind tops.reverse :: rest))
  ∧ (∀ (line : Str) (kind : FKind) (connective : FKind → List Filter → Filter)
       (stack : List Filter) (n : Nat) (lrest : Str),
       nextNonNegativeIntegerArgument line = .ok (n, lrest) →
       stack.length < n →
       parseAndOrLine line kind connective stack =
         .error (stackUnderflowMsg n stack.length, []))
  ∧ (∀ (line : Str) (connective : FKind → List Filter → Filter)
       (tops : List Filter) (rest : List StatsColumn) (n : Nat) (lrest : Str),
       nextNonNegativeIntegerArgument line = .ok (n, lrest) →
       tops.length = n →
       parseStatsAndOrLine line connective (tops.map StatsColumn.count ++ rest) =
         .ok (.count (connective .stats tops.reverse) :: rest))
  ∧ (∀ (line : Str) (connective : FKind → List Filter → Filter)
       (tops : List Filter) (n : Nat) (lrest : Str),
       nextNonNegativeIntegerArgument line = .ok (n, lrest) →
       tops.length < n →
       parseStatsAndOrLine line connective (tops.map StatsColumn.count) =
         .error (stackUnderflowMsg n tops.length, [])) := by
  refine ⟨?_, ?_, ?_, ?_⟩
  · intro line kind connective tops rest n lrest hline htops
    subst htops
    have hlen : tops.length ≤ (tops ++ rest).length := by simp
    have hpop := popLoop_ok tops.length tops.length [] (tops ++ rest) hlen
    simp only [List.take_left, List.drop_left, List.nil_append] at hpop
    simp [parseAndOrLine, hline, hpop]
  · intro line kind connective stack n lrest hline hlt
    have := popLoop_underflow n stack n [] hlt
    simp only [List.length_nil, Nat.zero_add] at this
    simp [parseAndOrLine, hline, this]
  · intro line connective tops rest n lrest hline htops
    have := popStatsLoop_ok n tops n [] rest htops
    simp only [List.nil_append] at this
    simp [parseStatsAndOrLine, hline, this]
  · intro line connective tops n lrest hline hlt
    have := popStatsLoop_underflow n tops n [] hlt
    simp only [List.length_nil, Nat.zero_add] at this
    simp [parseStatsAndOrLine, hline, this]

/-- Witness for C1 at concrete inputs: `And 2` over a three-filter stack
combines the two topmost in push order; `And 3` over a one-filter stack
underflows naming 3 and 1; `StatsOr 2` combines two counts; `StatsOr 2` over
one count underflows naming 2 and 1. -/
theorem c1_and_or_stack_discipline_witness :
    parseAndOrLine "2".data .row AndingFilter.make [fEx1, fEx2, fEx3] =
      .ok (AndingFilter.make .row [fEx2, fEx1] :: [fEx3])
  ∧ parseAndOrLine "3".data .row AndingFilter.make [fEx1] =
      .error (stackUnderflowMsg 3 1, [])
  ∧ parseStatsAndOrLine "2".data OringFilter.make [.count fEx1, .count fEx2] =
      .ok [.count (OringFilter.make .stats [fEx2, fEx1])]
  ∧ parseStatsAndOrLine "2".data OringFilter.make [.count fEx1] =
      .error (stackUnderflowMsg 2 1, []) := by
  refine ⟨?_, ?_, ?_, ?_⟩
  · exact c1_and_or_stack_discipline.1 "2".data .row AndingFilter.make
      [fEx1, fEx2] [fEx3] 2 [] rfl rfl
  · exact c1_and_or_stack_discipline.2.1 "3".data .row AndingFilter.make
      [fEx1] 3 [] rfl (by decide)
  · exact c1_and_or_stack_discipline.2.2.1 "2".data OringFilter.make
      [fEx1, fEx2] [] 2 [] rfl rfl
  · exact c1_and_or_stack_discipline.2.2.2 "2".data OringFilter.make
      [fEx1] 2 [] rfl (by decide)

/-- Claim C2: `And.make` with an empty subfilter list returns the
trivially-true filter accepting every row, `Or.make` with an empty list the
trivially-false filter accepting no row, and either with a singleton list
returns that subfilter unchanged; consequently the root row filter and root
wait-condition filter built at end-of-request are the `And` of the respective
stack's remaining contents (in push order), and an empty stack yields a root
that accepts every row. -/
theorem c2_make_identity_elements :
    (∀ (Row : Type) (ev : String → RelOp → String → Row → Bool) (k : FKind) (r : Row),
        (AndingFilter.make k []).accepts ev r = true)
  ∧ (∀ (Row : Type) (ev : String → RelOp → String → Row → Bool) (k : FKind) (r : Row),
        (OringFilter.make k []).accepts ev r = false)
  ∧ (∀ (k : FKind) (f : Filter), AndingFilter.make k [f] = f)
  ∧ (∀ (k : FKind) (f : Filter), OringFilter.make k [f] = f)
  ∧ (∀ (env : Env) (table : Table) (lines : List String),
        (ParsedQuery.build env table lines).filter =
          AndingFilter.make .row
            ((processLines env table lines (ParsedQuery.initial, [])).1.filters.reverse)
      ∧ (ParsedQuery.build env table lines).wait_condition =
          AndingFilter.make .wait_condition
            ((processLines env table lines (ParsedQuery.initial, [])).1.wait_conditions.reverse))
  ∧ (∀ (env : Env) (table : Table) (lines : List String) (Row : Type)
       (ev : String → RelOp → String → Row → Bool) (r : Row),
        (processLines env table lines (ParsedQuery.initial, [])).1.filters = [] →
        ((ParsedQuery.build env table lines).filter).accepts ev r = true) := by
  refine ⟨?_, ?_, ?_, ?_, ?_, ?_⟩
  · intro Row ev k r
    simp [AndingFilter.make, Filter.accepts, acceptsAll]
  · intro Row ev k r
    simp [OringFilter.make, Filter.accepts, acceptsAny]
  · intro k f; rfl
  · intro k f; rfl
  · intro env table lines
    exact ⟨rfl, rfl⟩
  · intro env table lines Row ev r h
    have hb : (ParsedQuery.build env table lines).filter =
        AndingFilter.make .row
          ((processLines env table lines (ParsedQuery.initial, [])).1.filters.reverse) := rfl
    rw [hb, h]
    simp [AndingFilter.make, Filter.accepts, acceptsAll]

/-- Witness for C2: an empty request leaves both stacks empty, and the
resulting root filter accepts every row. -/
theorem c2_make_identity_elements_witness :
    (processLines envEx sgTable [] (ParsedQuery.initial, [])).1.filters = []
  ∧ ((ParsedQuery.build envEx sgTable []).filter).accepts
      (fun _ _ _ (_ : Unit) => false) () = true :=
  ⟨rfl, c2_make_identity_elements.2.2.2.2.2 envEx sgTable [] Unit
      (fun _ _ _ _ => false) () rfl⟩

/-- Claim C3: parsing a `Stats:` line either (a) recognises the first token as
a registered aggregation name, takes the next token as a column name and
pushes `Op(factory, column)`, or (b) takes the first token as a column name,
the next token as a relational-operator name, the remainder of the line after
skipping leading whitespace (not trimmed on the right) as the rhs literal, and
pushes `Count(column.createFilter(stats, op, rhs))`; either way
`show_column_headers` is `false` after any successful `Stats:` line, in
particular after the first one. -/
theorem c3_stats_line :
    (∀ (line l1 l2 : Str) (col_or_op column_name : Str) (st : QState)
       (table : Table) (agg : AggKind),
       nextStringArgument line = .ok (col_or_op, l1) →
       stats_ops col_or_op = some agg →
       nextStringArgument l1 = .ok (column_name, l2) →
       String.mk column_name ∈ table.columnNames →
       parseStatsLine line table.column st =
         .ok { st with
                 stats_columns :=
                   .op agg (.real (String.mk column_name)) :: st.stats_columns
                 all_column_names :=
                   insertName st.all_column_names (String.mk column_name)
                 show_column_headers := false })
  ∧ (∀ (line l1 l2 : Str) (col_or_op op_name : Str) (st : QState)
       (table : Table) (rel_op : RelOp),
       nextStringArgument line = .ok (col_or_op, l1) →
       stats_ops col_or_op = none →
       nextStringArgument l1 = .ok (op_name, l2) →
       relationalOperatorForName op_name = .ok rel_op →
       String.mk col_or_op ∈ table.columnNames →
       parseStatsLine line table.column st =
         .ok { st with
                 stats_columns :=
                   .count (.columnFilter .stats (String.mk col_or_op) rel_op
                     (String.mk (l2.dropWhile isWhitespace))) :: st.stats_columns
                 all_column_names :=
                   insertName st.all_column_names (String.mk col_or_op)
                 show_column_headers := false })
  ∧ (∀ (line : Str) (make_column : Str → Except String Column)
       (st st' : QState),
       parseStatsLine line make_column st = .ok st' →
       st'.show_column_headers = false) := by
  refine ⟨?_, ?_, ?_⟩
  · intro line l1 l2 col_or_op column_name st table agg h1 h2 h3 hmem
    simp [parseStatsLine, h1, h2, h3, Table.column, hmem]
  · intro line l1 l2 col_or_op op_name st table rel_op h1 h2 h3 h4 hmem
    simp [parseStatsLine, h1, h2, h3, h4, Table.column, hmem, Column.createFilter]
  · intro line make_column st st' h
    unfold parseStatsLine at h
    cases hx1 : nextStringArgument line with
    | error e => simp only [hx1] at h; exact Except.noConfusion h
    | ok p1 =>
      obtain ⟨col_or_op, l1⟩ := p1
      simp only [hx1] at h
      cases hx2 : stats_ops col_or_op with
      | none =>
        simp only [hx2] at h
        cases hx3 : nextStringArgument l1 with
        | error e => simp only [hx3] at h; exact Except.noConfusion h
        | ok p2 =>
          obtain ⟨op_name, l2⟩ := p2
          simp only [hx3] at h
          cases hx4 : relationalOperatorForName op_name with
          | error e => simp only [hx4] at h; exact Except.noConfusion h
          | ok rel_op =>
            simp only [hx4] at h
            cases hx5 : make_column col_or_op with
            | error e => simp only [hx5] at h; exact Except.noConfusion h
            | ok col =>
              simp only [hx5] at h
              cases hx6 : col.createFilter .stats rel_op
                  (String.mk (l2.dropWhile isWhitespace)) with
              | error e => simp only [hx6] at h; exact Except.noConfusion h
              | ok f =>
                simp only [hx6] at h
                rw [← Except.ok.inj h]
      | some agg =>
        simp only [hx2] at h
        cases hx3 : nextStringArgument l1 with
        | error e => simp only [hx3] at h; exact Except.noConfusion h
        | ok p2 =>
          obtain ⟨column_name, l2⟩ := p2
          simp only [hx3] at h
          cases hx4 : make_column column_name with
          | error e => simp only [hx4] at h; exact Except.noConfusion h
          | ok col =>
            simp only [hx4] at h
            rw [← Except.ok.inj h]

/-- Witness for C3: `Stats: sum num_services` pushes an `Op`; a line
`Stats: num_services > 0 ` (note the trailing blank) pushes a `Count` whose
rhs literal keeps the trailing blank; both force `show_column_headers` off. -/
theorem c3_stats_line_witness :
    parseStatsLine "sum num_services".data sgTable.column ParsedQuery.initial =
      .ok { ParsedQuery.initial with
              stats_columns := [.op .sum (.real "num_services")]
              all_column_names := insertName [] "num_services"
              show_column_headers := false }
  ∧ parseStatsLine "num_services > 0 ".data sgTable.column ParsedQuery.initial =
      .ok { ParsedQuery.initial with
              stats_columns :=
                [.count (.columnFilter .stats "num_services" .greater "0 ")]
              all_column_names := insertName [] "num_services"
              show_column_headers := false } := by
  constructor
  · exact c3_stats_line.1 "sum num_services".data " num_services".data []
      "sum".data "num_services".data ParsedQuery.initial sgTable .sum
      rfl rfl rfl (by decide)
  · exact c3_stats_line.2.1 "num_services > 0 ".data " > 0 ".data " 0 ".data
      "num_services".data ">".data ParsedQuery.initial sgTable .greater
      rfl rfl rfl rfl (by decide)

/-- Claim C4: after all header lines are consumed, if both the output-column
list and the stats-column list are empty, the builder populates the output
columns with every column of the table in registration order and sets
`show_column_headers` to `true`, overriding whatever value earlier
`ColumnHeaders:`, `Columns:` or `Stats:` lines established. -/
theorem c4_default_columns :
    ∀ (env : Env) (table : Table) (lines : List String),
      (processLines env table lines (ParsedQuery.initial, [])).1.columns = [] →
      (processLines env table lines (ParsedQuery.initial, [])).1.stats_columns = [] →
      (ParsedQuery.build env table lines).columns =
        table.columnNames.map Column.real
      ∧ (ParsedQuery.build env table lines).show_column_headers = true := by
  intro env table lines h1 h2
  constructor
  · show (if ((processLines env table lines (ParsedQuery.initial, [])).1.columns.isEmpty &&
             (processLines env table lines (ParsedQuery.initial, [])).1.stats_columns.isEmpty) = true
          then table.columnNames.map Column.real
          else (processLines env table lines (ParsedQuery.initial, [])).1.columns) =
        table.columnNames.map Column.real
    rw [h1, h2]
    rfl
  · show (if ((processLines env table lines (ParsedQuery.initial, [])).1.columns.isEmpty &&
             (processLines env table lines (ParsedQuery.initial, [])).1.stats_columns.isEmpty) = true
          then true
          else (processLines env table lines (ParsedQuery.initial, [])).1.show_column_headers) = true
    rw [h1, h2]
    rfl

/-- Witness for C4: a request consisting solely of `ColumnHeaders: off` leaves
both lists empty, so the plan carries all twenty service-group columns in
registration order and shows column headers despite the explicit `off`. -/
theorem c4_default_columns_witness :
    (ParsedQuery.build envEx sgTable ["ColumnHeaders: off"]).columns =
      TableServiceGroups.columnNames.map Column.real
  ∧ (ParsedQuery.build envEx sgTable ["ColumnHeaders: off"]).show_column_headers = true :=
  c4_default_columns envEx sgTable ["ColumnHeaders: off"] rfl rfl

/-- Claim C5: a failing sub-parser is caught at the header-dispatch boundary
and recorded as a `bad_request` on the output buffer, after which processing
of the remaining lines continues from the state the failure left behind; the
builder nevertheless produces a complete plan (the roots are always built from
the remaining stacks, the recorded errors are exactly those accumulated by the
loop, and an entirely empty column/stats outcome can only happen for a table
without registered columns). -/
theorem c5_per_line_error_recovery :
    (∀ (env : Env) (table : Table) (st : QState) (out : List String)
       (line hdr msg : String) (stE : QState),
       parseLine env table st line = .error (hdr, msg, stE) →
       applyLine env table (st, out) line =
         (stE, out ++ [processingErrorMsg hdr table.name msg]))
  ∧ (∀ (env : Env) (table : Table) (stout : QState × List String)
       (line : String) (rest : List String),
       processLines env table (line :: rest) stout =
         processLines env table rest (applyLine env table stout line))
  ∧ (∀ (env : Env) (table : Table) (lines : List String),
       (ParsedQuery.build env table lines).errors =
         (processLines env table lines (ParsedQuery.initial, [])).2
     ∧ ((ParsedQuery.build env table lines).columns = [] →
         (ParsedQuery.build env table lines).stats_columns = [] →
         table.columnNames = [])) := by
  refine ⟨?_, ?_, ?_⟩
  · intro env table st out line hdr msg stE h
    simp [applyLine, h]
  · intro env table stout line rest
    rfl
  · intro env table lines
    refine ⟨rfl, ?_⟩
    intro h1 h2
    set st := (processLines env table lines (ParsedQuery.initial, [])).1 with hst
    by_cases hd : (st.columns.isEmpty && st.stats_columns.isEmpty) = true
    · have hcols : (ParsedQuery.build env table lines).columns =
          table.columnNames.map Column.real := by
        show (if (st.columns.isEmpty && st.stats_columns.isEmpty) = true
              then table.columnNames.map Column.real else st.columns) =
            table.columnNames.map Column.real
        rw [if_pos hd]
      rw [hcols] at h1
      exact List.map_eq_nil_iff.mp h1
    · exfalso
      have hcols : (ParsedQuery.build env table lines).columns = st.columns := by
        show (if (st.columns.isEmpty && st.stats_columns.isEmpty) = true
              then table.columnNames.map Column.real else st.columns) = st.columns
        rw [if_neg hd]
      have hstat : (ParsedQuery.build env table lines).stats_columns =
          st.stats_columns.reverse := rfl
      rw [hcols] at h1
      rw [hstat] at h2
      have h2' : st.stats_columns = [] := by
        simpa using congrArg List.reverse h2
      apply hd
      rw [h1, h2']
      rfl

/-- Witness for C5: an unknown header is recorded as a `bad_request` and the
state is untouched, so a following good line still takes effect. -/
theorem c5_per_line_error_recovery_witness :
    applyLine envEx sgTable (ParsedQuery.initial, []) "Bogus: x" =
      (ParsedQuery.initial,
       [] ++ [processingErrorMsg "Bogus" sgTable.name "undefined request header"]) :=
  c5_per_line_error_recovery.1 envEx sgTable ParsedQuery.initial []
    "Bogus: x" "Bogus" "undefined request header" ParsedQuery.initial rfl

/-- Claim C6: an `AuthUser:` line naming a user the core cannot resolve is
handled like a syntax error: the per-line failure is recorded as a
`bad_request` on the output buffer and the plan's authorization principal is
left untouched. -/
theorem c6_authuser_unknown :
    ∀ (env : Env) (table : Table) (st : QState) (out : List String)
      (restStr : String),
      String.mk (restStr.data.dropWhile isWhitespace) ∉ env.users →
      applyLine env table (st, out) ("AuthUser:" ++ restStr) =
        (st, out ++ [processingErrorMsg "AuthUser" table.name "unknown user"]) := by
  intro env table st out restStr hname
  have hpl : parseLine env table st ("AuthUser:" ++ restStr) =
      .error ("AuthUser", "unknown user", st) := by
    have h0 : ("AuthUser:" ++ restStr).data = "AuthUser:".data ++ restStr.data :=
      String.data_append _ _
    have h1 : ("AuthUser:".data ++ restStr.data).takeWhile
        (fun c => decide (c ≠ ':')) = "AuthUser".data := by
      rw [List.takeWhile_append, if_neg (by decide)]; decide
    have h2 : min ("AuthUser:".data ++ restStr.data).length
        ("AuthUser".data.length + 1) = 9 := by
      simp [List.length_append]
    have h3 : ("AuthUser:".data ++ restStr.data).drop 9 = restStr.data :=
      List.drop_left' rfl
    simp only [parseLine, h0, h1, h2, h3,
      show (String.mk "AuthUser".data) = "AuthUser" from rfl]
    simp [parseAuthUserHeader, findUser, hname]
  simp [applyLine, hpl]

/-- Witness for C6: `AuthUser: bob` against a core knowing only `admin` leaves
the no-auth principal in place and records the bad request. -/
theorem c6_authuser_unknown_witness :
    applyLine envEx sgTable (ParsedQuery.initial, []) ("AuthUser:" ++ " bob") =
      (ParsedQuery.initial,
       [] ++ [processingErrorMsg "AuthUser" sgTable.name "unknown user"]) :=
  c6_authuser_unknown envEx sgTable ParsedQuery.initial [] " bob" (by decide)

/-- Claim C7: a successfully parsed `Localtime:` line stores a timezone
offset that is an integer multiple of 1800 seconds with absolute value
strictly below 86400 seconds; the stored value is the difference between the
client's unix time and the server's time rounded to the nearest half hour (the
rounding error never exceeds 900 seconds); a computed offset of 24 hours or
more makes the line fail. -/
theorem c7_localtime_quantization :
    (∀ (line : Str) (env : Env) (st st' : QState),
       parseLocaltimeLine line env st = .ok st' →
       (1800 : Int) ∣ st'.timezone_offset ∧ st'.timezone_offset.natAbs < 86400)
  ∧ (∀ (line : Str) (env : Env) (st : QState) (t : Nat) (lrest : Str),
       nextNonNegativeIntegerArgument line = .ok (t, lrest) →
       86400 ≤ ((1800 : Int) * roundTiesEven1800 ((t : Int) - env.now_sys)).natAbs →
       parseLocaltimeLine line env st =
         .error "timezone difference greater than or equal to 24 hours")
  ∧ (∀ d : Int, (d - 1800 * roundTiesEven1800 d).natAbs ≤ 900) := by
  refine ⟨?_, ?_, ?_⟩
  · intro line env st st' h
    unfold parseLocaltimeLine at h
    cases hx : nextNonNegativeIntegerArgument line with
    | error e => simp only [hx] at h; exact Except.noConfusion h
    | ok p =>
      obtain ⟨t, lrest⟩ := p
      simp only [hx] at h
      by_cases habs :
          86400 ≤ ((1800 : Int) * roundTiesEven1800 ((t : Int) - env.now_sys)).natAbs
      · rw [if_pos habs] at h
        exact Except.noConfusion h
      · rw [if_neg habs] at h
        have h2 := Except.ok.inj h
        rw [← h2]
        constructor
        · exact Dvd.intro _ rfl
        · show ((1800 : Int) * roundTiesEven1800 ((t : Int) - env.now_sys)).natAbs < 86400
          omega
  · intro line env st t lrest hline habs
    simp only [parseLocaltimeLine, hline]
    rw [if_pos habs]
  · intro d
    have h0 : 1800 * Int.ediv d 1800 + Int.emod d 1800 = d :=
      Int.ediv_add_emod d 1800
    have h1 : 0 ≤ Int.emod d 1800 := Int.emod_nonneg d (by norm_num)
    have h2 : Int.emod d 1800 < 1800 := Int.emod_lt_of_pos d (by norm_num)
    simp only [roundTiesEven1800]
    repeat' split
    all_goals omega

/-- Witness for C7: with the server at unix time 0, `Localtime: 900` rounds
the 900-second difference to a zero offset (ties go to the even multiple), and
`Localtime: 200000` computes a 199800-second offset, which is rejected as a
difference of 24 hours or more. -/
theorem c7_localtime_quantization_witness :
    ((1800 : Int) ∣
        ({ ParsedQuery.initial with timezone_offset := 0 } : QState).timezone_offset
      ∧ ({ ParsedQuery.initial with
             timezone_offset := 0 } : QState).timezone_offset.natAbs < 86400)
  ∧ parseLocaltimeLine "200000".data envEx ParsedQuery.initial =
      .error "timezone difference greater than or equal to 24 hours" :=
  ⟨c7_localtime_quantization.1 "900".data envEx ParsedQuery.initial
      { ParsedQuery.initial with timezone_offset := 0 } rfl,
   c7_localtime_quantization.2.1 "200000".data envEx ParsedQuery.initial
      200000 [] rfl (by decide)⟩

/-- Claim C8: the `min` and `max` aggregations store an initial accumulator of
0 together with a first-update flag; the first `update(x)` sets the
accumulator to `x` unconditionally, every later `update(x)` replaces it only
when `x` is smaller (`min`) or larger (`max`), and `value()` of an aggregation
that has received no updates returns 0. -/
theorem c8_min_max_first_flag :
    (MinAggregation.init = { first_ := true, sum_ := 0 }
      ∧ MaxAggregation.init = { first_ := true, sum_ := 0 }
      ∧ MinAggregation.init.value = 0 ∧ MaxAggregation.init.value = 0)
  ∧ (∀ (a : MinAggregation) (x : Rat), a.first_ = true →
       a.update x = { first_ := false, sum_ := x })
  ∧ (∀ (a : MaxAggregation) (x : Rat), a.first_ = true →
       a.update x = { first_ := false, sum_ := x })
  ∧ (∀ (a : MinAggregation) (x : Rat), a.first_ = false →
       a.update x = { first_ := false, sum_ := if x < a.sum_ then x else a.sum_ })
  ∧ (∀ (a : MaxAggregation) (x : Rat), a.first_ = false →
       a.update x = { first_ := false, sum_ := if a.sum_ < x then x else a.sum_ }) := by
  refine ⟨⟨rfl, rfl, rfl, rfl⟩, ?_, ?_, ?_, ?_⟩
  · intro a x h; simp [MinAggregation.update, h]
  · intro a x h; simp [MaxAggregation.update, h]
  · intro a x h; simp [MinAggregation.update, h]
  · intro a x h; simp [MaxAggregation.update, h]

/-- Witness for C8: a first update overwrites the zero accumulator with 7
even though 7 exceeds it; a later update with a larger value leaves a `min`
accumulator unchanged. -/
theorem c8_min_max_first_flag_witness :
    MinAggregation.init.update 7 = { first_ := false, sum_ := 7 }
  ∧ (MinAggregation.mk false 5).update 9 =
      { first_ := false, sum_ := if (9 : Rat) < 5 then 9 else 5 } :=
  ⟨c8_min_max_first_flag.2.1 MinAggregation.init 7 rfl,
   c8_min_max_first_flag.2.2.2.1 (MinAggregation.mk false 5) 9 rfl⟩

lemma parseColumnsLine_show_false (line : Str)
    (make_column : Str → Except String Column) (st : QState) :
    (parseColumnsLine line make_column st).show_column_headers = false := by
  cases hp : parseColumnsLoop make_column line st.columns st.all_column_names with
  | mk cols names => simp [parseColumnsLine, hp]

/-- Claim C9: every `Columns:` line, including one listing only known column
names or no names at all, unconditionally sets `show_column_headers` to
`false` after appending its columns; in particular a `Columns:` line after
`ColumnHeaders: on` silently disables the header row again. -/
theorem c9_columns_line_disables_headers :
    (∀ (line : Str) (make_column : Str → Except String Column) (st : QState),
       (parseColumnsLine line make_column st).show_column_headers = false)
  ∧ (∀ (env : Env) (table : Table) (st : QState) (out : List String)
       (restStr : String),
       ((applyLine env table (st, out) ("Columns:" ++ restStr)).1).show_column_headers =
         false) := by
  constructor
  · exact parseColumnsLine_show_false
  · intro env table st out restStr
    have h0 : ("Columns:" ++ restStr).data = "Columns:".data ++ restStr.data :=
      String.data_append _ _
    have h1 : ("Columns:".data ++ restStr.data).takeWhile
        (fun c => decide (c ≠ ':')) = "Columns".data := by
      rw [List.takeWhile_append, if_neg (by decide)]; decide
    have h2 : min ("Columns:".data ++ restStr.data).length
        ("Columns".data.length + 1) = 8 := by
      simp [List.length_append]
    have h3 : ("Columns:".data ++ restStr.data).drop 8 = restStr.data :=
      List.drop_left' rfl
    have hpl : parseLine env table st ("Columns:" ++ restStr) =
        .ok (parseColumnsLine (restStr.data.dropWhile isWhitespace)
              table.column st) := by
      simp only [parseLine, h0, h1, h2, h3,
        show (String.mk "Columns".data) = "Columns" from rfl]
      simp
    simp [applyLine, hpl, parseColumnsLine_show_false]

/-- Claim C10: the `OutputFormat:` argument is matched case-sensitively:
`CSV` selects the `csv` output format while lowercase `csv` selects
`broken_csv`, `json` selects `json`, and both `python` and `python3` select
`python3`; any other spelling fails. -/
theorem c10_output_format_map :
    formats "CSV".data = some .csv
  ∧ formats "csv".data = some .broken_csv
  ∧ formats "json".data = some .json
  ∧ formats "python".data = some .python3
  ∧ formats "python3".data = some .python3
  ∧ (∀ s : Str, s ≠ "CSV".data → s ≠ "csv".data → s ≠ "json".data →
       s ≠ "python".data → s ≠ "python3".data → formats s = none)
  ∧ (∀ (line tok lrest : Str) (st : QState) (f : OutputFormat),
       nextStringArgument line = .ok (tok, lrest) →
       formats tok = some f →
       parseOutputFormatLine line st = .ok { st with output_format := f })
  ∧ (∀ (line tok lrest : Str) (st : QState),
       nextStringArgument line = .ok (tok, lrest) →
       formats tok = none →
       parseOutputFormatLine line st = .error outputFormatErrorMsg) := by
  refine ⟨rfl, rfl, rfl, rfl, rfl, ?_, ?_, ?_⟩
  · intro s h1 h2 h3 h4 h5
    simp [formats, h1, h2, h3, h4, h5]
  · intro line tok lrest st f hline hf
    simp [parseOutputFormatLine, hline, hf]
  · intro line tok lrest st hline hf
    simp [parseOutputFormatLine, hline, hf]

/-- Witness for C10: `CSV` yields the `csv` format, `csv` yields
`broken_csv`, and the spelling `Csv` fails. -/
theorem c10_output_format_map_witness :
    parseOutputFormatLine "CSV".data ParsedQuery.initial =
      .ok { ParsedQuery.initial with output_format := .csv }
  ∧ parseOutputFormatLine "csv".data ParsedQuery.initial =
      .ok { ParsedQuery.initial with output_format := .broken_csv }
  ∧ parseOutputFormatLine "Csv".data ParsedQuery.initial =
      .error outputFormatErrorMsg :=
  ⟨c10_output_format_map.2.2.2.2.2.2.1 "CSV".data "CSV".data [] ParsedQuery.initial
      .csv rfl rfl,
   c10_output_format_map.2.2.2.2.2.2.1 "csv".data "csv".data [] ParsedQuery.initial
      .broken_csv rfl rfl,
   c10_output_format_map.2.2.2.2.2.2.2 "Csv".data "Csv".data [] ParsedQuery.initial
      rfl rfl⟩

end Livestatus
